import Mathlib

/-!
Shallow embedding of the eris-lavalink repository (src/Lavalink.js, src/Player.js)
and verification of the frozen claims about its specification.

The `Lavalink` section models the node connection class: its constructor,
connect/reconnect/backoff lifecycle, send and onMessage.  Timers created by
setTimeout are modelled explicitly as a list of (handle id, delay) pairs so
that the pending-timer invariant and the observed backoff delays can be
stated; `reconnectInterval` stores the handle the code keeps in the field of
the same name.  Emitted events are accumulated in an `emits` log inside the
state, and frames written to the socket in `wireOut`.

The `Player` section models the per-guild player: its outbound send queue,
the process.nextTick deferrals (a FIFO `tasks` list), and an interleaved
observation log of calls to node.send and emitted signals.
-/

/-- A parsed wire message (the result of JSON.parse): its optional "op"
field plus the remaining fields, kept opaque. -/
structure WireMsg where
  op : Option String := none
  fields : List (String × Nat) := []
deriving DecidableEq

/-- Raw inbound socket text: either it fails JSON.parse or it parses to a
`WireMsg`. -/
inductive Raw where
  | malformed (text : String)
  | wellFormed (d : WireMsg)
deriving DecidableEq

/-- Events emitted by the Lavalink node class. -/
inductive LavaEmit where
  | error (msg : String)
  | message (d : WireMsg)
  | ready
  | disconnect
deriving DecidableEq

/-- Outbound data handed to Lavalink.send: JSON.stringify either succeeds
or throws (circular structures); we model the two cases. -/
inductive SendData where
  | serializable (text : String)
  | unserializable
deriving DecidableEq

/-- JSON.stringify, abstracted to its success/failure behaviour. -/
def stringify : SendData → Option String
  | .serializable t => some t
  | .unserializable => none

/-- JavaScript truthiness of the `data.op` field: absent and the empty
string are falsy. -/
def opTruthy : Option String → Bool
  | none => false
  | some t => t ≠ ""

/-- State of one Lavalink node connection.  `timers` holds the scheduled,
not-yet-fired reconnect setTimeout timers as (handle id, delay in ms);
`reconnectInterval` is the handle stored in this.reconnectInterval (none for
null); `hasWs` is the truthiness of this.ws. -/
structure LavaState where
  connected : Bool
  draining : Bool
  retries : Nat
  reconnectTimeout : Nat
  reconnectInterval : Option Nat
  timers : List (Nat × Nat)
  nextId : Nat
  hasWs : Bool
  stats : WireMsg
  emits : List LavaEmit
  wireOut : List String
deriving DecidableEq

/-- The stats object the constructor installs. -/
def initialStats : WireMsg :=
  { op := none, fields := [("players", 0), ("playingPlayers", 0)] }

/-- State after the constructor ran (it calls connect(), creating the ws;
the open event has not fired yet).  `timeout` is options.timeout, default
5000. -/
def lavaInit (timeout : Nat) : LavaState :=
  { connected := false
    draining := false
    retries := 0
    reconnectTimeout := timeout
    reconnectInterval := none
    timers := []
    nextId := 0
    hasWs := true
    stats := initialStats
    emits := []
    wireOut := [] }

/-- connect(): creates a fresh websocket. -/
def Lavalink.connect (s : LavaState) : LavaState :=
  { s with hasWs := true }

/-- retryInterval(): let retries = Math.min(this.retries - 1, 5);
return Math.pow(retries + 5, 2) * 1000.  JavaScript arithmetic makes
this.retries - 1 equal to -1 when this.retries is 0, hence the Int detour. -/
def Lavalink.retryInterval (retries : Nat) : Nat :=
  ((min ((retries : Int) - 1) 5 + 5) ^ 2).toNat * 1000

/-- ready(): clear any stored reconnect timer handle, mark connected, reset
retries, emit the ready event. -/
def Lavalink.ready (s : LavaState) : LavaState :=
  let s1 :=
    match s.reconnectInterval with
    | some h => { s with timers := s.timers.filter (fun t => t.1 != h), reconnectInterval := none }
    | none => s
  { s1 with connected := true, retries := 0, emits := s1.emits ++ [.ready] }

/-- disconnected(): mark disconnected; if no reconnect handle is stored,
emit the disconnect event; drop the ws; if no reconnect handle is stored,
schedule one reconnect after this.reconnectTimeout ms. -/
def Lavalink.disconnected (s : LavaState) : LavaState :=
  let s1 := { s with connected := false }
  let s2 :=
    if s1.reconnectInterval = none then { s1 with emits := s1.emits ++ [.disconnect] } else s1
  let s3 := { s2 with hasWs := false }
  if s3.reconnectInterval = none then
    { s3 with
      reconnectInterval := some s3.nextId
      timers := s3.timers ++ [(s3.nextId, s3.reconnectTimeout)]
      nextId := s3.nextId + 1 }
  else s3

/-- reconnect(): compute the backoff interval from the current retry count,
schedule the next reconnect at that interval (storing its handle),
increment retries, and connect. -/
def Lavalink.reconnect (s : LavaState) : LavaState :=
  let interval := Lavalink.retryInterval s.retries
  let s1 :=
    { s with
      reconnectInterval := some s.nextId
      timers := s.timers ++ [(s.nextId, interval)]
      nextId := s.nextId + 1 }
  let s2 := { s1 with retries := s1.retries + 1 }
  Lavalink.connect s2

/-- destroy(): detach the close handler and close the socket. -/
def Lavalink.destroy (s : LavaState) : LavaState :=
  if s.hasWs then { s with hasWs := false } else s

/-- A scheduled timer with handle id `h` fires: it leaves the pending set
and its callback, reconnect(), runs. -/
def fireTimer (s : LavaState) (h : Nat) : LavaState :=
  Lavalink.reconnect { s with timers := s.timers.filter (fun t => t.1 != h) }

/-- send(data): if this.ws is falsy, return at once (no emit, no buffering);
otherwise JSON.stringify, emitting the error event on failure, and write the
frame on success. -/
def Lavalink.send (s : LavaState) (d : SendData) : LavaState :=
  if s.hasWs = false then s
  else
    match stringify d with
    | none => { s with emits := s.emits ++ [.error "Unable to stringify payload."] }
    | some p => { s with wireOut := s.wireOut ++ [p] }

/-- onMessage(message): JSON.parse, emitting the error event on failure;
if data.op is truthy and equal to "stats", replace this.stats with the
payload; in every parsed case emit the message event with the payload. -/
def Lavalink.onMessage (s : LavaState) (raw : Raw) : LavaState :=
  match raw with
  | .malformed _ => { s with emits := s.emits ++ [.error "Unable to parse ws message."] }
  | .wellFormed d =>
    let s1 := if opTruthy d.op && (d.op == some "stats") then { s with stats := d } else s
    { s1 with emits := s1.emits ++ [.message d] }

/-- One system event on a node connection: the socket opens, the socket
closes, a scheduled reconnect timer fires, an inbound message arrives, a
send is attempted, or destroy() is called. -/
inductive LavaStep : LavaState → LavaState → Prop where
  | opened (s : LavaState) (h : s.hasWs = true) : LavaStep s (Lavalink.ready s)
  | close (s : LavaState) (h : s.hasWs = true) : LavaStep s (Lavalink.disconnected s)
  | fire (s : LavaState) (t : Nat × Nat) (hmem : t ∈ s.timers) : LavaStep s (fireTimer s t.1)
  | msg (s : LavaState) (raw : Raw) (h : s.hasWs = true) : LavaStep s (Lavalink.onMessage s raw)
  | sendStep (s : LavaState) (d : SendData) : LavaStep s (Lavalink.send s d)
  | destroyStep (s : LavaState) : LavaStep s (Lavalink.destroy s)

/-- Reachability of a node state from the freshly constructed node. -/
def LavaReachable (timeout : Nat) (s : LavaState) : Prop :=
  Relation.ReflTransGen LavaStep (lavaInit timeout) s

/-- The timer bookkeeping invariant: at most one pending reconnect timer,
every pending timer is the one whose handle is stored, and no stored handle
means no pending timer. -/
def TimerInv (s : LavaState) : Prop :=
  s.timers.length ≤ 1 ∧
  (∀ t ∈ s.timers, s.reconnectInterval = some t.1) ∧
  (s.reconnectInterval = none → s.timers = [])

/-- The deterministic always-failing run used for the backoff trace:
state just before reconnect attempt 1 (the initial connect failed), then
one fire-and-fail round per later attempt. -/
def nextTimerId (s : LavaState) : Nat :=
  match s.timers with
  | [t] => t.1
  | _ => 0

/-- The delay of the unique pending timer (0 if there is not exactly one). -/
def nextDelay (s : LavaState) : Nat :=
  match s.timers with
  | [t] => t.2
  | _ => 0

/-- One failing round: the pending reconnect timer fires (running
reconnect(), which schedules the next timer and reconnects) and the new
socket fails again (close event, running disconnected()). -/
def failStep (s : LavaState) : LavaState :=
  Lavalink.disconnected (fireTimer s (nextTimerId s))

/-- State before the (k+1)-st reconnect attempt of a node whose every
connect fails, configured with the given timeout. -/
def stateBefore (timeout : Nat) : Nat → LavaState
  | 0 => Lavalink.disconnected (lavaInit timeout)
  | k + 1 => failStep (stateBefore timeout k)

/-- The delay observed before the r-th reconnect attempt (r counted from 1)
of an always-failing node. -/
def delayBefore (timeout r : Nat) : Nat :=
  nextDelay (stateBefore timeout (r - 1))

/-- The first n reconnect delays observed by an always-failing node. -/
def observedDelays (timeout n : Nat) : List Nat :=
  (List.range n).map (fun k => nextDelay (stateBefore timeout k))

/-- A payload queued or sent by the player (the JSON command objects built
in Player.js). -/
inductive Payload where
  | voiceUpdate (guildId sessionId event : String)
  | play (guildId track : String) (options : List (String × String))
  | stop (guildId : String)
  | destroy (guildId : String)
  | pause (guildId : String) (pauseFlag : Bool)
deriving DecidableEq

/-- One entry of the player observation log: a payload handed to
this.node.send, or a signal emitted on the player. -/
inductive LogItem where
  | sent (p : Payload)
  | emitted (sig : String)
deriving DecidableEq

/-- A callback deferred with process.nextTick: either the queue drain
scheduled by sendEvent, or an emit of a signal. -/
inductive PTask where
  | checkQueue
  | emitSignal (sig : String)
deriving DecidableEq

/-- State of one Player, together with the bits of its environment the
claims need: the bound node's draining flag, a count of
manager.switchNode(this) calls, the pending process.nextTick callbacks
(FIFO), and the observation log. -/
structure PState where
  guildId : String
  channelId : String
  readyFlag : Bool
  playing : Bool
  paused : Bool
  track : Option String
  lastTrack : Option String
  playOptions : Option (List (String × String))
  statePosition : Option Nat
  timestamp : Nat
  sendQueue : List Payload
  draining : Bool
  switchNodeCalls : Nat
  tasks : List PTask
  log : List LogItem
deriving DecidableEq

/-- Player state right after the constructor ran. -/
def initP (gid cid : String) (now : Nat) : PState :=
  { guildId := gid
    channelId := cid
    readyFlag := false
    playing := false
    paused := false
    track := none
    lastTrack := none
    playOptions := none
    statePosition := none
    timestamp := now
    sendQueue := []
    draining := false
    switchNodeCalls := 0
    tasks := []
    log := [] }

/-- sendEvent(data): this.node.send(data), then defer checkEventQueue to
the next tick. -/
def Player.sendEvent (s : PState) (d : Payload) : PState :=
  { s with log := s.log ++ [.sent d], tasks := s.tasks ++ [.checkQueue] }

/-- checkEventQueue(): if the queue is non-empty, splice off its head and
sendEvent it. -/
def Player.checkEventQueue (s : PState) : PState :=
  match s.sendQueue with
  | [] => s
  | e :: rest => Player.sendEvent { s with sendQueue := rest } e

/-- queueEvent(data): push onto the queue when it is non-empty, otherwise
sendEvent immediately. -/
def Player.queueEvent (s : PState) (d : Payload) : PState :=
  if s.sendQueue.length > 0 then { s with sendQueue := s.sendQueue ++ [d] }
  else Player.sendEvent s d

/-- connect(data): emit the connect signal, queue the voiceUpdate payload
built from the argument, and defer the ready emit to the next tick. -/
def Player.connect (s : PState) (guildId sessionId event : String) : PState :=
  let s1 := { s with log := s.log ++ [.emitted "connect"] }
  let s2 := Player.queueEvent s1 (.voiceUpdate guildId sessionId event)
  { s2 with tasks := s2.tasks ++ [.emitSignal "ready"] }

/-- play(track, options): remember the previous track, store the new one
and the options; if the bound node is draining, zero the cached position
and call manager.switchNode; otherwise queue the play payload, set playing
unless paused, and stamp the time. -/
def Player.play (s : PState) (track : String) (options : List (String × String)) (now : Nat) : PState :=
  let s1 := { s with lastTrack := s.track, track := some track, playOptions := some options }
  if s1.draining then
    { s1 with statePosition := some 0, switchNodeCalls := s1.switchNodeCalls + 1 }
  else
    let s2 := Player.queueEvent s1 (.play s1.guildId track options)
    { s2 with playing := !s2.paused, timestamp := now }

/-- stop(): queue the stop payload, clear the playing flag, remember the
current track as the previous one and clear it. -/
def Player.stop (s : PState) : PState :=
  let s1 := Player.queueEvent s (.stop s.guildId)
  { s1 with playing := false, lastTrack := s1.track, track := none }

/-- onTrackEnd(message): unless the end reason is REPLACED, clear the
playing flag and the current track (remembering it); emit the end signal. -/
def Player.onTrackEnd (s : PState) (reason : String) : PState :=
  let s1 :=
    if reason ≠ "REPLACED" then { s with playing := false, lastTrack := s.track, track := none }
    else s
  { s1 with log := s1.log ++ [.emitted "end"] }

/-- onTrackStuck(message): stop(), then defer the end emit to the next
tick. -/
def Player.onTrackStuck (s : PState) : PState :=
  let s1 := Player.stop s
  { s1 with tasks := s1.tasks ++ [.emitSignal "end"] }

/-- Run one deferred callback. -/
def runTask (s : PState) (t : PTask) : PState :=
  match t with
  | .checkQueue => Player.checkEventQueue s
  | .emitSignal sig => { s with log := s.log ++ [.emitted sig] }

/-- One scheduler turn: run the oldest pending deferred callback, if any. -/
def tickP (s : PState) : PState :=
  match s.tasks with
  | [] => s
  | t :: rest => runTask { s with tasks := rest } t

/-- One externally triggered step on a player: a raw queueEvent call (the
common path of every queued command), one of the public operations the
claims mention, the bound node toggling its draining flag, or a scheduler
turn. -/
inductive Step where
  | enqueue (p : Payload)
  | connect (guildId sessionId event : String)
  | play (track : String) (options : List (String × String)) (now : Nat)
  | stop
  | onTrackEnd (reason : String)
  | onTrackStuck
  | setDraining (b : Bool)
  | tick
deriving DecidableEq

/-- Interpret one step. -/
def doStep (s : PState) : Step → PState
  | .enqueue p => Player.queueEvent s p
  | .connect g sid ev => Player.connect s g sid ev
  | .play t o n => Player.play s t o n
  | .stop => Player.stop s
  | .onTrackEnd r => Player.onTrackEnd s r
  | .onTrackStuck => Player.onTrackStuck s
  | .setDraining b => { s with draining := b }
  | .tick => tickP s

/-- Interpret a list of steps in order. -/
def runSteps (s : PState) : List Step → PState
  | [] => s
  | st :: rest => runSteps (doStep s st) rest

/-- Project the observation log onto the payloads handed to node.send, in
order. -/
def sentOf : List LogItem → List Payload
  | [] => []
  | .sent p :: rest => p :: sentOf rest
  | .emitted _ :: rest => sentOf rest

/-- The payloads a step hands to queueEvent (hence, in enqueue order),
given the draining flag in force when it runs. -/
def stepSends (gid : String) (dr : Bool) : Step → List Payload
  | .enqueue p => [p]
  | .connect g sid ev => [.voiceUpdate g sid ev]
  | .play t o _ => if dr then [] else [.play gid t o]
  | .stop => [.stop gid]
  | .onTrackEnd _ => []
  | .onTrackStuck => [.stop gid]
  | .setDraining _ => []
  | .tick => []

/-- How a step changes the draining flag. -/
def stepDraining (dr : Bool) : Step → Bool
  | .setDraining b => b
  | _ => dr

/-- The payloads a whole step list enqueues, in enqueue order. -/
def expectedSends (gid : String) : Bool → List Step → List Payload
  | _, [] => []
  | dr, st :: rest => stepSends gid dr st ++ expectedSends gid (stepDraining dr st) rest

/-- A node state reached by one disconnect from the freshly constructed
node: this.ws has been deleted and one reconnect timer is pending. -/
def disconnectedNode : LavaState := Lavalink.disconnected (lavaInit 5000)

/-- A concrete parsed stats payload. -/
def statsMsg : WireMsg := { op := some "stats", fields := [("players", 3), ("playingPlayers", 1)] }

/-- A concrete player whose bound node is draining. -/
def exDraining : PState := { initP "guild1" "chan1" 0 with draining := true }

theorem sentOf_append (a b : List LogItem) : sentOf (a ++ b) = sentOf a ++ sentOf b := by
  induction a with
  | nil => simp [sentOf]
  | cons x rest ih => cases x <;> simp [sentOf, ih]

theorem runSteps_append (a b : List Step) : ∀ s : PState,
    runSteps s (a ++ b) = runSteps (runSteps s a) b := by
  induction a with
  | nil => intro s; simp [runSteps]
  | cons st rest ih => intro s; simp [runSteps, ih]

theorem doStep_spec (s : PState) (st : Step) (h : s.sendQueue = []) :
    (doStep s st).sendQueue = [] ∧
    (doStep s st).guildId = s.guildId ∧
    (doStep s st).draining = stepDraining s.draining st ∧
    sentOf (doStep s st).log = sentOf s.log ++ stepSends s.guildId s.draining st := by
  cases st with
  | enqueue p =>
    simp [doStep, Player.queueEvent, h, Player.sendEvent, stepDraining, stepSends,
      sentOf_append, sentOf]
  | connect g sid ev =>
    simp [doStep, Player.connect, Player.queueEvent, h, Player.sendEvent, stepDraining,
      stepSends, sentOf_append, sentOf]
  | play t o n =>
    by_cases hd : s.draining
    · simp [doStep, Player.play, hd, stepDraining, stepSends, h]
    · simp [doStep, Player.play, hd, Player.queueEvent, h, Player.sendEvent, stepDraining,
        stepSends, sentOf_append, sentOf]
  | stop =>
    simp [doStep, Player.stop, Player.queueEvent, h, Player.sendEvent, stepDraining,
      stepSends, sentOf_append, sentOf]
  | onTrackEnd r =>
    by_cases hr : r = "REPLACED" <;>
      simp [doStep, Player.onTrackEnd, hr, stepDraining, stepSends, sentOf_append, sentOf, h]
  | onTrackStuck =>
    simp [doStep, Player.onTrackStuck, Player.stop, Player.queueEvent, h, Player.sendEvent,
      stepDraining, stepSends, sentOf_append, sentOf]
  | setDraining b =>
    simp [doStep, stepDraining, stepSends, h]
  | tick =>
    cases ht : s.tasks with
    | nil => simp [doStep, tickP, ht, stepDraining, stepSends, h]
    | cons t rest =>
      cases t with
      | checkQueue =>
        simp [doStep, tickP, ht, runTask, Player.checkEventQueue, h, stepDraining, stepSends]
      | emitSignal sig =>
        simp [doStep, tickP, ht, runTask, stepDraining, stepSends, sentOf_append, sentOf, h]

theorem runSteps_spec (steps : List Step) : ∀ s : PState, s.sendQueue = [] →
    (runSteps s steps).sendQueue = [] ∧
    (runSteps s steps).guildId = s.guildId ∧
    sentOf (runSteps s steps).log = sentOf s.log ++ expectedSends s.guildId s.draining steps := by
  induction steps with
  | nil => intro s h; simp [runSteps, expectedSends, h]
  | cons st rest ih =>
    intro s h
    obtain ⟨h1, h2, h3, h4⟩ := doStep_spec s st h
    obtain ⟨g1, g2, g3⟩ := ih (doStep s st) h1
    refine ⟨g1, by rw [runSteps] at *; rw [g2, h2], ?_⟩
    rw [runSteps] at *
    rw [g3, h4, h2, h3, expectedSends, List.append_assoc]

theorem Player.queueEvent_log (s : PState) (d : Payload) :
    ∃ t, (Player.queueEvent s d).log = s.log ++ t := by
  by_cases h : s.sendQueue.length > 0
  · exact ⟨[], by simp [Player.queueEvent, h]⟩
  · exact ⟨[.sent d], by simp [Player.queueEvent, h, Player.sendEvent]⟩

theorem Player.stop_log (s : PState) : ∃ t, (Player.stop s).log = s.log ++ t := by
  obtain ⟨t, ht⟩ := Player.queueEvent_log s (.stop s.guildId)
  exact ⟨t, by simp [Player.stop, ht]⟩

theorem doStep_log (s : PState) (st : Step) : ∃ t, (doStep s st).log = s.log ++ t := by
  cases st with
  | enqueue p => simpa [doStep] using Player.queueEvent_log s p
  | connect g sid ev =>
    obtain ⟨t, ht⟩ :=
      Player.queueEvent_log { s with log := s.log ++ [.emitted "connect"] }
        (.voiceUpdate g sid ev)
    exact ⟨[.emitted "connect"] ++ t, by simp [doStep, Player.connect, ht]⟩
  | play t o n =>
    by_cases hd : s.draining
    · exact ⟨[], by simp [doStep, Player.play, hd]⟩
    · rw [Bool.not_eq_true] at hd
      obtain ⟨u, hu⟩ := Player.queueEvent_log { s with lastTrack := s.track, track := some t, playOptions := some o } (.play s.guildId t o)
      rw [hd] at hu
      exact ⟨u, by simp [doStep, Player.play, hd, hu]⟩
  | stop => simpa [doStep] using Player.stop_log s
  | onTrackEnd r =>
    by_cases hr : r = "REPLACED"
    · exact ⟨[.emitted "end"], by simp [doStep, Player.onTrackEnd, hr]⟩
    · exact ⟨[.emitted "end"], by simp [doStep, Player.onTrackEnd, hr]⟩
  | onTrackStuck =>
    obtain ⟨t, ht⟩ := Player.stop_log s
    exact ⟨t, by simp [doStep, Player.onTrackStuck, ht]⟩
  | setDraining b => exact ⟨[], by simp [doStep]⟩
  | tick =>
    cases ht : s.tasks with
    | nil => exact ⟨[], by simp [doStep, tickP, ht]⟩
    | cons t rest =>
      cases t with
      | checkQueue =>
        cases hq : s.sendQueue with
        | nil => exact ⟨[], by simp [doStep, tickP, ht, runTask, Player.checkEventQueue, hq]⟩
        | cons e es =>
          exact ⟨[.sent e],
            by simp [doStep, tickP, ht, runTask, Player.checkEventQueue, hq, Player.sendEvent]⟩
      | emitSignal sig =>
        exact ⟨[.emitted sig], by simp [doStep, tickP, ht, runTask]⟩

theorem runSteps_log (steps : List Step) : ∀ s : PState,
    ∃ t, (runSteps s steps).log = s.log ++ t := by
  induction steps with
  | nil => intro s; exact ⟨[], by simp [runSteps]⟩
  | cons st rest ih =>
    intro s
    obtain ⟨t1, h1⟩ := doStep_log s st
    obtain ⟨t2, h2⟩ := ih (doStep s st)
    exact ⟨t1 ++ t2, by rw [runSteps, h2, h1, List.append_assoc]⟩

/-- C2: commands passed to a session's queueEvent are handed to the
node's send in exactly the order enqueued, for every interleaving of
operations and scheduler turns; in particular the voiceUpdate enqueued by
connect() is delivered before the play command enqueued right after it. -/
theorem c2_fifo_delivery :
    (∀ (g c : String) (n : Nat) (steps : List Step),
      sentOf (runSteps (initP g c n) steps).log = expectedSends g false steps) ∧
    (∀ (g c gi sid ev t : String) (n m : Nat) (o : List (String × String)),
      sentOf (runSteps (initP g c n) [.connect gi sid ev, .play t o m]).log
        = [.voiceUpdate gi sid ev, .play g t o]) := by
  constructor
  · intro g c n steps
    have h := (runSteps_spec steps (initP g c n) rfl).2.2
    simpa [initP, sentOf] using h
  · intro g c gi sid ev t n m o
    have h := (runSteps_spec [.connect gi sid ev, .play t o m] (initP g c n) rfl).2.2
    simpa [initP, sentOf, expectedSends, stepSends, stepDraining] using h

/-- C10: after any sequence of public player operations the outbound
sendQueue is empty, so queueEvent always takes the immediate-send path
(it agrees with sendEvent) and the deferred checkEventQueue drain never
dequeues anything (it is the identity). -/
theorem c10_queue_always_empty (g c : String) (n : Nat) (steps : List Step) :
    (runSteps (initP g c n) steps).sendQueue = [] ∧
    (∀ p, Player.queueEvent (runSteps (initP g c n) steps) p
        = Player.sendEvent (runSteps (initP g c n) steps) p) ∧
    Player.checkEventQueue (runSteps (initP g c n) steps) = runSteps (initP g c n) steps := by
  have h := (runSteps_spec steps (initP g c n) rfl).1
  refine ⟨h, ?_, ?_⟩
  · intro p; simp [Player.queueEvent, h]
  · simp [Player.checkEventQueue, h]

/-- C3: from any reachable player state, connect() sends the voiceUpdate
payload immediately (the queue being empty, nothing is pending before it),
defers the ready emit to a later scheduling turn, and in the quiescent run
the ready signal appears in the log strictly after the voiceUpdate send.
The ready signal thus fires only after the voice handshake command has
been issued. -/
theorem c3_connect_order (g c gi sid ev : String) (n : Nat) (steps : List Step) :
    (runSteps (initP g c n) (steps ++ [.connect gi sid ev])).log
      = (runSteps (initP g c n) steps).log
        ++ [.emitted "connect", .sent (.voiceUpdate gi sid ev)] ∧
    (runSteps (initP g c n) (steps ++ [.connect gi sid ev])).tasks
      = (runSteps (initP g c n) steps).tasks ++ [.checkQueue, .emitSignal "ready"] ∧
    (runSteps (initP g c n) (steps ++ [.connect gi sid ev])).sendQueue = [] ∧
    (runSteps (initP g c n) [.connect gi sid ev, .tick, .tick]).log
      = [.emitted "connect", .sent (.voiceUpdate gi sid ev), .emitted "ready"] := by
  have hq := (runSteps_spec steps (initP g c n) rfl).1
  refine ⟨?_, ?_, ?_, ?_⟩
  · rw [runSteps_append]
    simp [runSteps, doStep, Player.connect, Player.queueEvent, hq, Player.sendEvent]
  · rw [runSteps_append]
    simp [runSteps, doStep, Player.connect, Player.queueEvent, hq, Player.sendEvent]
  · rw [runSteps_append]
    simp [runSteps, doStep, Player.connect, Player.queueEvent, hq, Player.sendEvent]
  · simp [runSteps, doStep, Player.connect, Player.queueEvent, Player.sendEvent, initP,
      tickP, runTask, Player.checkEventQueue]

/-- C9: from any reachable player state, onTrackStuck sends the stop wire
command synchronously (the only log item it adds) and only schedules the
end emit for a later turn; whatever happens afterwards, the log extends
the prefix ending in the stop send, so the end signal can only appear
strictly after it, as the concrete quiescent run shows. -/
theorem c9_stuck_order (g c : String) (n : Nat) (steps : List Step) :
    (runSteps (initP g c n) (steps ++ [.onTrackStuck])).log
      = (runSteps (initP g c n) steps).log ++ [.sent (.stop g)] ∧
    (runSteps (initP g c n) (steps ++ [.onTrackStuck])).tasks
      = (runSteps (initP g c n) steps).tasks ++ [.checkQueue, .emitSignal "end"] ∧
    (∀ more : List Step, ∃ rest : List LogItem,
      (runSteps (initP g c n) (steps ++ [.onTrackStuck] ++ more)).log
        = (runSteps (initP g c n) steps).log ++ [.sent (.stop g)] ++ rest) ∧
    (runSteps (initP g c n) [.onTrackStuck, .tick, .tick]).log
      = [.sent (.stop g), .emitted "end"] := by
  have hq := (runSteps_spec steps (initP g c n) rfl).1
  have hg : (runSteps (initP g c n) steps).guildId = g := by
    have h := (runSteps_spec steps (initP g c n) rfl).2.1
    simpa [initP] using h
  have h1 : (runSteps (initP g c n) (steps ++ [.onTrackStuck])).log
      = (runSteps (initP g c n) steps).log ++ [.sent (.stop g)] := by
    rw [runSteps_append]
    simp [runSteps, doStep, Player.onTrackStuck, Player.stop, Player.queueEvent, hq,
      Player.sendEvent, hg]
  refine ⟨h1, ?_, ?_, ?_⟩
  · rw [runSteps_append]
    simp [runSteps, doStep, Player.onTrackStuck, Player.stop, Player.queueEvent, hq,
      Player.sendEvent]
  · intro more
    obtain ⟨rest, hrest⟩ :=
      runSteps_log more (runSteps (initP g c n) (steps ++ [.onTrackStuck]))
    refine ⟨rest, ?_⟩
    rw [runSteps_append (steps ++ [Step.onTrackStuck]) more, hrest, h1]
  · simp [runSteps, doStep, Player.onTrackStuck, Player.stop, Player.queueEvent,
      Player.sendEvent, initP, tickP, runTask, Player.checkEventQueue]

/-- C7: play() on a player whose bound node is draining changes only the
track bookkeeping, resets the cached playback position to zero and calls
manager.switchNode; no payload is queued or sent (log and queue are
untouched). -/
theorem c7_play_draining (s : PState) (t : String) (o : List (String × String)) (m : Nat)
    (h : s.draining = true) :
    Player.play s t o m =
      { s with
          lastTrack := s.track
          track := some t
          playOptions := some o
          statePosition := some 0
          switchNodeCalls := s.switchNodeCalls + 1 } ∧
    (Player.play s t o m).log = s.log ∧
    (Player.play s t o m).sendQueue = s.sendQueue := by
  refine ⟨?_, ?_, ?_⟩ <;> simp [Player.play, h]


/-- C7 witness: the draining hypothesis discharged at a concrete player. -/
theorem c7_witness :
    exDraining.draining = true ∧
    (Player.play exDraining "trackA" [] 5 =
      { exDraining with
          lastTrack := exDraining.track
          track := some "trackA"
          playOptions := some []
          statePosition := some 0
          switchNodeCalls := exDraining.switchNodeCalls + 1 } ∧
    (Player.play exDraining "trackA" [] 5).log = exDraining.log ∧
    (Player.play exDraining "trackA" [] 5).sendQueue = exDraining.sendQueue) :=
  ⟨rfl, c7_play_draining exDraining "trackA" [] 5 rfl⟩

/-- C8: onTrackEnd with reason REPLACED leaves playing and the track
fields untouched; any other reason clears playing and the current track,
remembering it as the previous track; both cases emit the end signal. -/
theorem c8_onTrackEnd (s : PState) (reason : String) :
    Player.onTrackEnd s reason =
      if reason = "REPLACED" then { s with log := s.log ++ [.emitted "end"] }
      else
        { s with
            playing := false
            lastTrack := s.track
            track := none
            log := s.log ++ [.emitted "end"] } := by
  by_cases h : reason = "REPLACED" <;> simp [Player.onTrackEnd, h]

/-- C1 counterexample: a fresh node with the default 5000 ms timeout that
fails to open three times consecutively observes reconnect delays
5000 ms, 16000 ms, 25000 ms, not the 25000 ms, 36000 ms, 49000 ms the
claim states. -/
theorem c1_counterexample :
    observedDelays 5000 3 = [5000, 16000, 25000] ∧
    observedDelays 5000 3 ≠ [25000, 36000, 49000] := by
  refine ⟨?_, ?_⟩ <;> decide

/-- Closed form of the always-failing run: before the (k+1)-st reconnect
attempt the node has retries = k and exactly one pending timer, whose
delay is the configured timeout for the first attempt and
retryInterval(k - 1) afterwards. -/
theorem stateBefore_spec (timeout : Nat) : ∀ k : Nat,
    stateBefore timeout k =
      { connected := false
        draining := false
        retries := k
        reconnectTimeout := timeout
        reconnectInterval := some k
        timers := [(k, if k = 0 then timeout else Lavalink.retryInterval (k - 1))]
        nextId := k + 1
        hasWs := false
        stats := initialStats
        emits := [.disconnect]
        wireOut := [] } := by
  intro k
  induction k with
  | zero => rfl
  | succ k ih =>
    rw [stateBefore, ih]
    simp [failStep, nextTimerId, fireTimer, Lavalink.reconnect, Lavalink.connect,
      Lavalink.disconnected]

/-- C1 amended: the delay before the first reconnect attempt is the
configured reconnectTimeout (not part of the backoff formula); for r at
least 2 the delay before the r-th attempt is retryInterval(r - 2), that
is (min(r-3,5)+5)^2 * 1000 ms; with the default timeout the first three
observed delays are 5000 ms, 16000 ms and 25000 ms. -/
theorem c1_amended (timeout r : Nat) (h : 2 ≤ r) :
    delayBefore timeout 1 = timeout ∧
    delayBefore timeout r = Lavalink.retryInterval (r - 2) ∧
    observedDelays 5000 3 = [5000, 16000, 25000] := by
  refine ⟨?_, ?_, by decide⟩
  · simp [delayBefore, stateBefore_spec, nextDelay]
  · obtain ⟨m, rfl⟩ : ∃ m, r = m + 2 := ⟨r - 2, by omega⟩
    simp [delayBefore, stateBefore_spec, nextDelay]

/-- C1 witness: the amended statement instantiated at r = 3 with the
default timeout, hypotheses discharged. -/
theorem c1_witness :
    delayBefore 5000 1 = 5000 ∧
    delayBefore 5000 3 = Lavalink.retryInterval 1 ∧
    observedDelays 5000 3 = [5000, 16000, 25000] :=
  c1_amended 5000 3 (by decide)


/-- C4 counterexample: sending on a node whose socket is gone (one
disconnect after construction) leaves the state completely unchanged: the
send is dropped, but no error signal fires — the emit log still holds
only the disconnect event, refuting the claimed error signal. -/
theorem c4_counterexample :
    disconnectedNode.hasWs = false ∧
    Lavalink.send disconnectedNode (.serializable "payload") = disconnectedNode ∧
    disconnectedNode.emits = [LavaEmit.disconnect] := by
  refine ⟨rfl, ?_, rfl⟩ ; rfl

/-- C4 amended: a send attempted while the socket is absent is dropped
silently: the state is returned unchanged, so nothing is buffered,
nothing reaches the wire, no signal fires and no exception propagates.
An error signal fires only when serialization fails with a socket
present. -/
theorem c4_amended (s : LavaState) (d : SendData) (h : s.hasWs = false) :
    Lavalink.send s d = s := by
  simp [Lavalink.send, h]

/-- C4 witness: the no-socket hypothesis discharged at the concrete
disconnected node. -/
theorem c4_witness :
    disconnectedNode.hasWs = false ∧
    Lavalink.send disconnectedNode (.serializable "x") = disconnectedNode :=
  ⟨rfl, c4_amended disconnectedNode (.serializable "x") rfl⟩


/-- C5 counterexample: a parsed payload whose op is stats updates the
load snapshot and is nevertheless still forwarded through the message
signal, refuting the claim that it is forwarded-instead-of. -/
theorem c5_counterexample :
    (Lavalink.onMessage (lavaInit 5000) (.wellFormed statsMsg)).stats = statsMsg ∧
    (Lavalink.onMessage (lavaInit 5000) (.wellFormed statsMsg)).emits
      = [LavaEmit.message statsMsg] := by
  refine ⟨rfl, rfl⟩

/-- C5 amended: a malformed payload only fires the error signal and is
otherwise ignored; a payload whose op is stats updates the load snapshot
and, in addition, is forwarded via the message signal; every other
well-formed payload is forwarded via the message signal with the
snapshot untouched. -/
theorem c5_amended (s : LavaState) (t : String) (d : WireMsg) :
    Lavalink.onMessage s (.malformed t)
      = { s with emits := s.emits ++ [.error "Unable to parse ws message."] } ∧
    Lavalink.onMessage s (.wellFormed d)
      = (if d.op = some "stats"
         then { s with stats := d, emits := s.emits ++ [.message d] }
         else { s with emits := s.emits ++ [.message d] }) := by
  refine ⟨rfl, ?_⟩
  by_cases h : d.op = some "stats"
  · simp [Lavalink.onMessage, h, opTruthy]
  · cases hop : d.op with
    | none => simp [Lavalink.onMessage, opTruthy, hop, h]
    | some v =>
      have hv : v ≠ "stats" := by
        intro hveq
        exact h (by rw [hop, hveq])
      simp [Lavalink.onMessage, opTruthy, hop, h, hv]

theorem onMessage_timer_fields (s : LavaState) (raw : Raw) :
    (Lavalink.onMessage s raw).timers = s.timers ∧
    (Lavalink.onMessage s raw).reconnectInterval = s.reconnectInterval := by
  cases raw with
  | malformed t => simp [Lavalink.onMessage]
  | wellFormed d =>
    by_cases h : opTruthy d.op && (d.op == some "stats") <;> simp [Lavalink.onMessage, h]

theorem send_timer_fields (s : LavaState) (d : SendData) :
    (Lavalink.send s d).timers = s.timers ∧
    (Lavalink.send s d).reconnectInterval = s.reconnectInterval := by
  by_cases h : s.hasWs = false
  · simp [Lavalink.send, h]
  · cases hd : stringify d <;> simp [Lavalink.send, h, hd]

theorem timerInv_init (timeout : Nat) : TimerInv (lavaInit timeout) := by
  refine ⟨by simp [lavaInit], by simp [lavaInit], by simp [lavaInit]⟩

theorem all_ids_filter_nil (l : List (Nat × Nat)) (h : Nat)
    (hall : ∀ t ∈ l, t.1 = h) : l.filter (fun t => t.1 != h) = [] := by
  apply List.filter_eq_nil_iff.mpr
  intro t ht
  simp [hall t ht]

theorem timerInv_step {s s2 : LavaState} (hs : LavaStep s s2) (hinv : TimerInv s) :
    TimerInv s2 := by
  obtain ⟨hlen, hall, hnone⟩ := hinv
  cases hs with
  | opened h =>
    cases hri : s.reconnectInterval with
    | none =>
      refine ⟨?_, ?_, ?_⟩ <;> simp [Lavalink.ready, hri, hlen, hnone hri]
    | some hdl =>
      have hfil : s.timers.filter (fun t => t.1 != hdl) = [] := by
        apply all_ids_filter_nil
        intro t ht
        have h1 := hall t ht
        rw [hri] at h1
        exact (Option.some.injEq _ _).mp h1.symm
      refine ⟨?_, ?_, ?_⟩ <;> simp [Lavalink.ready, hri, hfil]
  | close h =>
    cases hri : s.reconnectInterval with
    | none =>
      have htimers := hnone hri
      refine ⟨?_, ?_, ?_⟩ <;> simp [Lavalink.disconnected, hri, htimers]
    | some hdl =>
      have hfields : (Lavalink.disconnected s).timers = s.timers ∧
          (Lavalink.disconnected s).reconnectInterval = s.reconnectInterval := by
        simp [Lavalink.disconnected, hri]
      rw [TimerInv, hfields.1, hfields.2]
      exact ⟨hlen, hall, hnone⟩
  | fire t hmem =>
    have hhdl : s.reconnectInterval = some t.1 := hall t hmem
    have hfil : s.timers.filter (fun u => u.1 != t.1) = [] := by
      apply all_ids_filter_nil
      intro u hu
      have h1 := hall u hu
      rw [hhdl] at h1
      exact (Option.some.injEq _ _).mp h1.symm
    refine ⟨?_, ?_, ?_⟩ <;>
      simp [fireTimer, Lavalink.reconnect, Lavalink.connect, hfil]
  | msg raw h =>
    obtain ⟨h1, h2⟩ := onMessage_timer_fields s raw
    rw [TimerInv, h1, h2]
    exact ⟨hlen, hall, hnone⟩
  | sendStep d =>
    obtain ⟨h1, h2⟩ := send_timer_fields s d
    rw [TimerInv, h1, h2]
    exact ⟨hlen, hall, hnone⟩
  | destroyStep =>
    have hfields : (Lavalink.destroy s).timers = s.timers ∧
        (Lavalink.destroy s).reconnectInterval = s.reconnectInterval := by
      by_cases h : s.hasWs <;> simp [Lavalink.destroy, h]
    rw [TimerInv, hfields.1, hfields.2]
    exact ⟨hlen, hall, hnone⟩

theorem lavaReachable_inv {timeout : Nat} {s : LavaState}
    (h : LavaReachable timeout s) : TimerInv s := by
  have h2 : Relation.ReflTransGen LavaStep (lavaInit timeout) s := h
  clear h
  induction h2 with
  | refl => exact timerInv_init timeout
  | tail hsteps hstep ih => exact timerInv_step hstep ih

/-- C6: in every reachable state of the node lifecycle at most one
reconnect timer is pending, and ready() resets the retry counter to 0 and
cancels any pending reconnect timer. -/
theorem c6_single_timer (timeout : Nat) (s : LavaState) (h : LavaReachable timeout s) :
    s.timers.length ≤ 1 ∧
    (Lavalink.ready s).retries = 0 ∧
    (Lavalink.ready s).timers = [] := by
  obtain ⟨hlen, hall, hnone⟩ := lavaReachable_inv h
  refine ⟨hlen, ?_, ?_⟩
  · cases hri : s.reconnectInterval <;> simp [Lavalink.ready, hri]
  · cases hri : s.reconnectInterval with
    | none => simp [Lavalink.ready, hri, hnone hri]
    | some hdl =>
      have hfil : s.timers.filter (fun t => t.1 != hdl) = [] := by
        apply all_ids_filter_nil
        intro t ht
        have h1 := hall t ht
        rw [hri] at h1
        exact (Option.some.injEq _ _).mp h1.symm
      simp [Lavalink.ready, hri, hfil]

/-- C6 witness: the reachability hypothesis discharged at the freshly
constructed node. -/
theorem c6_witness :
    (lavaInit 5000).timers.length ≤ 1 ∧
    (Lavalink.ready (lavaInit 5000)).retries = 0 ∧
    (Lavalink.ready (lavaInit 5000)).timers = [] :=
  c6_single_timer 5000 (lavaInit 5000) Relation.ReflTransGen.refl
